import Mathlib

/- Verification of the field-normalization and template marker-resolution engine
   of the insurance-policy OCR pipeline.  Every definition below is a shallow
   embedding of a Python function of the repository; Python strings are modelled
   as Lean `String` (lists of unicode scalar values), Python regex calls are
   modelled by hand-rolled matchers with the same leftmost / greedy semantics,
   and Python whitespace stripping is modelled with `Char.isWhitespace`
   (the ASCII subset of Python's whitespace class). -/

/-! ## Shared string helpers -/

def isWs (c : Char) : Bool := c.isWhitespace

/-- Drop leading whitespace, as one half of Python `str.strip()`. -/
def ltrimL (l : List Char) : List Char := l.dropWhile isWs

/-- Drop trailing whitespace, the other half of Python `str.strip()`. -/
def rtrimL (l : List Char) : List Char := (l.reverse.dropWhile isWs).reverse

/-- Model of Python `str.strip()` on the character list. -/
def pyStripL (l : List Char) : List Char := rtrimL (ltrimL l)

/-- Model of Python `str.strip()`. -/
def pyStrip (s : String) : String := ⟨pyStripL s.data⟩

/-- Model of Python substring containment `sub in hay` on character lists. -/
def containsSub (hay sub : List Char) : Bool :=
  match hay with
  | [] => sub.isEmpty
  | _ :: t => sub.isPrefixOf hay || containsSub t sub

/-- Model of Python `sub in hay` for strings. -/
def hasSubstr (hay sub : String) : Bool := containsSub hay.data sub.data

/-! ## Data model (RawExtractionRecord and CoverageItem, from the spec's
    data model; field names follow the Python dict keys). -/

/-- One nested line of the coverage table (`sub_items` entries). -/
structure CoverageSub where
  type_name : String
  insured_amount : String
deriving DecidableEq, Repr

/-- One top-level line of the coverage table. -/
structure CoverageItem where
  type_name : String
  insured_amount : String
  sub_items : List CoverageSub
deriving DecidableEq, Repr

/-- The scalar fields of the raw extraction record that the selection deriver
    reads, each `Option` because a key may be missing (Python `dict.get`),
    plus the coverage list.  `none` covers both a missing key and a `None`
    value, which `process_ocr_data` treats identically. -/
structure RawRecord where
  gender : Option String := none
  policyholder_gender : Option String := none
  vehicle_type : Option String := none
  relationship : Option String := none
  compulsory_insurance_period : Option String := none
  optional_insurance_period : Option String := none
  coverage_items : List CoverageItem := []
deriving DecidableEq, Repr

/-! ## word_template_processor.WordTemplateProcessor.process_ocr_data -/

/-- Line 148: a string value whose `strip()` equals the unfilled sentinel
    is rewritten to the empty string. -/
def normStr (s : String) : String := if pyStrip s = "無填寫" then "" else s

/-- The line-148 normalization applied to an optional field. -/
def normField (v : Option String) : Option String := v.map normStr

/-- `ocr_data.get(field, "")` on the normalized record. -/
def getS (v : Option String) : String := (normField v).getD ""

/-- Python truthiness of `ocr_data.get(field)` on the normalized record. -/
def truthy (v : Option String) : Bool :=
  match normField v with
  | none => false
  | some s => s != ""

/-- Lines 165-175 / 179-188: the gender checkbox pair (male, female). -/
def genderTokens (g : String) : String × String :=
  if g = "男" then ("☑ ", "□")
  else if g = "女" then ("□", "☑ ")
  else ("□", "□")

/-- Lines 192-198: the vehicle-type checkbox pair (moto, car). -/
def vehicleTokens (v : String) : String × String :=
  if hasSubstr v "機車" then ("☑ ", "□") else ("□", "☑ ")

/-- Keys of `relationship_map` (lines 203-212), in insertion order;
    token `relationship_(i+1)` corresponds to entry `i`. -/
def relationshipMapKeys : List String :=
  ["本人", "配偶", "父母", "子女", "雇傭", "祖孫", "債權債務", "標的物"]

/-- `relationship_options` (lines 217-219), for the legacy
    `CHECK_RELATIONSHIP_*` token family. -/
def relationship_options : List String :=
  ["本人", "配偶", "父母", "子女", "雇傭", "祖孫", "債權債務", "標的物"]

/-- Lines 213-214 / 220-222: one checkbox token per option. -/
def relTokens (rel : String) (opts : List String) : List String :=
  opts.map (fun o => if rel = o then "☑ " else "□")

/-- Lines 229-232: `"☑ " if period not in [None, ""] else "□"`. -/
def periodCheck (v : Option String) : String :=
  match normField v with
  | none => "□"
  | some s => if s = "" then "□" else "☑ "

/-- Lines 234-237: blank echo fields are replaced by the box glyph. -/
def blankToBox (s : String) : String := if s = "" then "□" else s

/-- Lines 243-247: first top-level item whose type name contains the
    vehicle-damage substring; its insured amount, else the empty string. -/
def find_car_damage_amount : List CoverageItem → String
  | [] => ""
  | it :: rest =>
    if hasSubstr it.type_name "車體損失保險" then it.insured_amount
    else find_car_damage_amount rest

/-- Inner loop of lines 251-253: first sub-item whose type name contains the
    per-person-injury substring. -/
def findSubAmount : List CoverageSub → Option String
  | [] => none
  | s :: rest =>
    if hasSubstr s.type_name "每一個人傷害" then some s.insured_amount
    else findSubAmount rest

/-- Lines 248-254: scan parents containing the third-party-liability substring
    and return the first matching sub-item amount; the outer loop continues
    past a matching parent with no matching sub-item. -/
def find_third_party_personal_amount : List CoverageItem → String
  | [] => ""
  | it :: rest =>
    if hasSubstr it.type_name "第三人傷害責任險" then
      match findSubAmount it.sub_items with
      | some a => a
      | none => find_third_party_personal_amount rest
    else find_third_party_personal_amount rest

/-- Lines 255-266: derivation of `optional_insurance_amount`. -/
def deriveOptionalAmount (comp opt : Option String) (items : List CoverageItem) :
    String :=
  if truthy comp && !(truthy opt) then ""
  else if truthy opt then
    let car := find_car_damage_amount items
    if car != "" then car else find_third_party_personal_amount items
  else ""

/-- The outputs of `process_ocr_data` that the claims are about. -/
structure ProcessedTokens where
  gender_male : String
  gender_female : String
  policyholder_gender_male : String
  policyholder_gender_female : String
  vehicle_type_moto : String
  vehicle_type_car : String
  relationship_tokens : List String
  check_relationship_tokens : List String
  CHECK_1 : String
  CHECK_2 : String
  check_compulsory_insurance_period : String
  check_optional_insurance_period : String
  gender : String
  policyholder_gender : String
  relationship : String
  vehicle_type : String
  optional_insurance_amount : String
  compulsory_insurance_amount : String
deriving DecidableEq, Repr

/-- `WordTemplateProcessor.process_ocr_data` (lines 137-271), restricted to the
    derived fields the claims mention.  Field order follows the Python
    statement order. -/
def processOcrData (raw : RawRecord) : ProcessedTokens :=
  let gender := getS raw.gender
  let pg := getS raw.policyholder_gender
  let vt := getS raw.vehicle_type
  let rel := getS raw.relationship
  let gt := genderTokens gender
  let pgt := genderTokens pg
  let vtt := vehicleTokens vt
  { gender_male := gt.1
    gender_female := gt.2
    policyholder_gender_male := pgt.1
    policyholder_gender_female := pgt.2
    vehicle_type_moto := vtt.1
    vehicle_type_car := vtt.2
    relationship_tokens := relTokens rel relationshipMapKeys
    check_relationship_tokens := relTokens rel relationship_options
    CHECK_1 := "☑ "
    CHECK_2 := "☑ "
    check_compulsory_insurance_period := periodCheck raw.compulsory_insurance_period
    check_optional_insurance_period := periodCheck raw.optional_insurance_period
    gender := blankToBox gender
    policyholder_gender := blankToBox pg
    relationship := blankToBox rel
    vehicle_type := vt
    optional_insurance_amount :=
      deriveOptionalAmount raw.compulsory_insurance_period
        raw.optional_insurance_period raw.coverage_items
    compulsory_insurance_amount := "" }

/-! ## archive/word_template_filler.WordTemplateFiller._replace_tag_with_value
    (lines 302-331): cross-run marker resolution inside one paragraph. -/

/-- A text run of a paragraph: its literal text plus an opaque formatting
    payload (the Python code never touches a run's formatting, only `.text`). -/
structure TextRun where
  text : String
  fmt : Nat
deriving DecidableEq, Repr

/-- Model of Python `tag.startswith(acc)`. -/
def pyStartsWith (tag acc : String) : Bool := acc.data.isPrefixOf tag.data

/-- The inner `for j in range(i, n)` loop: starting from the current run,
    accumulate run texts; report `some k` when the accumulator first equals
    `tag` after consuming `k` runs, `none` when it stops being a prefix of
    `tag` or the runs are exhausted. -/
def tryMatch (tag : String) : List TextRun → String → Option Nat
  | [], _ => none
  | r :: rest, acc =>
    if acc ++ r.text = tag then some 1
    else if pyStartsWith tag (acc ++ r.text) then
      match tryMatch tag rest (acc ++ r.text) with
      | some k => some (k + 1)
      | none => none
    else none

/-- `runs[k].text = ''` applied to every run of the list. -/
def blankRuns (l : List TextRun) : List TextRun :=
  l.map (fun r => { r with text := "" })

/-- The body of the outer `while i < n` loop, with the iteration count made
    explicit as fuel (the Python index `i` grows by at least one per
    iteration, so `n` iterations always suffice).  On a match consuming `k`
    runs, the first run's text becomes the value (its formatting untouched),
    the next `k - 1` runs are blanked, and scanning resumes after the
    consumed range (`i = j` followed by `i += 1`). -/
def replaceTagGo (tag value : String) : Nat → List TextRun → List TextRun
  | _, [] => []
  | 0, l => l
  | fuel + 1, r :: rest =>
    match tryMatch tag (r :: rest) "" with
    | some k =>
      { r with text := value } :: (blankRuns (rest.take (k - 1))
        ++ replaceTagGo tag value fuel (rest.drop (k - 1)))
    | none => r :: replaceTagGo tag value fuel rest

/-- `_replace_tag_with_value` on one paragraph's run list. -/
def replaceTag (tag value : String) (runs : List TextRun) : List TextRun :=
  replaceTagGo tag value runs.length runs

/-- Concatenated paragraph text (`para.text` in python-docx terms). -/
def joinTexts (l : List TextRun) : String :=
  l.foldr (fun r acc => r.text ++ acc) ""

/-! ## data_processor.DataProcessor: the field normalizers -/

/-- Character class kept by `clean_text`'s allow-list
    `[一-龥a-zA-Z0-9\s\-\.\,\:\/\(\)]`. -/
def allowedTextChar (c : Char) : Bool :=
  (0x4e00 ≤ c.toNat && c.toNat ≤ 0x9fa5) ||
  ('a' ≤ c && c ≤ 'z') || ('A' ≤ c && c ≤ 'Z') || ('0' ≤ c && c ≤ '9') ||
  isWs c || ['-', '.', ',', ':', '/', '(', ')'].contains c

/-- Model of `re.sub(r'\s+', ' ', ...)`: each maximal whitespace run becomes
    a single space.  The flag records whether the previous character was part
    of a whitespace run already rewritten. -/
def collapseWsAux : Bool → List Char → List Char
  | _, [] => []
  | prevWs, c :: rest =>
    if isWs c then
      if prevWs then collapseWsAux true rest
      else ' ' :: collapseWsAux true rest
    else c :: collapseWsAux false rest

/-- Collapse whitespace runs to single spaces. -/
def collapseWs (l : List Char) : List Char := collapseWsAux false l

/-- `DataProcessor.clean_text` (data_processor.py lines 13-32): strip, collapse
    whitespace runs, drop characters outside the allow-list. -/
def clean_text (s : String) : String :=
  if s = "" then ""
  else ⟨(collapseWs (pyStripL s.data)).filter allowedTextChar⟩

/-- ASCII alphanumeric, the class kept by `re.sub(r'[^A-Za-z0-9]', '', ...)`. -/
def isAsciiAlnum (c : Char) : Bool :=
  ('A' ≤ c && c ≤ 'Z') || ('a' ≤ c && c ≤ 'z') || ('0' ≤ c && c ≤ '9')

/-- Strip non-alphanumerics and uppercase, the shared first step of
    `format_policy_number` and `format_id_number`. -/
def cleanAlnumUpper (s : String) : String :=
  ⟨(s.data.filter isAsciiAlnum).map Char.toUpper⟩

/-- `DataProcessor.format_policy_number` (data_processor.py lines 34-57). -/
def format_policy_number (s : String) : String :=
  if s = "" then ""
  else
    let cleaned := cleanAlnumUpper s
    if 8 ≤ cleaned.length && cleaned.length ≤ 20 then cleaned else s

/-- The anchored regex `^[A-Z][0-9]{9}$` of `format_id_number`. -/
def idCheck (s : String) : Bool :=
  match s.data with
  | c :: rest => ('A' ≤ c && c ≤ 'Z') && rest.length == 9 && rest.all Char.isDigit
  | [] => false

/-- `DataProcessor.format_id_number` (data_processor.py lines 147-170): strip
    non-alphanumerics, uppercase, accept only the letter + nine digit shape. -/
def format_id_number (s : String) : String :=
  if s = "" then ""
  else
    let cleaned := cleanAlnumUpper s
    if idCheck cleaned then cleaned else s

/-- Python `\w` for the archived formatter, modelled as ASCII alphanumerics,
    the underscore, and CJK ideographs (the repertoire its inputs draw from). -/
def isWordChar (c : Char) : Bool :=
  isAsciiAlnum c || c == '_' || (0x4e00 ≤ c.toNat && c.toNat ≤ 0x9fa5)

/-- `DataProcessor.format_id_number` of archive/data_processor_old.py
    (lines 147-172): strips only non-word characters, does not uppercase, and
    also accepts the eight-digit organization shape. -/
def format_id_number_old (s : String) : String :=
  if s = "" then ""
  else
    let cleaned : String := ⟨s.data.filter isWordChar⟩
    if cleaned.data.length == 8 && cleaned.data.all Char.isDigit then cleaned
    else if idCheck cleaned then cleaned
    else s

/-- `DataProcessor.format_insurance_period` of archive/data_processor_old.py:
    blank input becomes the unfilled sentinel, otherwise the stripped value. -/
def format_insurance_period (s : String) : String :=
  if pyStrip s = "" then "無填寫" else pyStrip s

/-! ### format_amount and thousands grouping -/

/-- Helper of the `f"{num:,}"` model: walking the reversed digit list,
    insert a comma before every later group of three. -/
def groupRev : List Char → Nat → List Char
  | [], _ => []
  | c :: rest, n =>
    if n % 3 == 0 && n != 0 then ',' :: c :: groupRev rest (n + 1)
    else c :: groupRev rest (n + 1)

/-- Insert thousands separators into a digit list. -/
def addThousands (ds : List Char) : List Char := (groupRev ds.reverse 0).reverse

/-- Model of Python `int(...)` on a digit-only string followed by decimal
    rendering: drop leading zeros, keeping a single `0` for zero. -/
def canonDigits (ds : List Char) : List Char :=
  if (ds.dropWhile (fun c => c == '0')).isEmpty then ['0']
  else ds.dropWhile (fun c => c == '0')

/-- Model of `f"{int(cleaned):,}"` for a nonempty digit-only `cleaned`. -/
def renderGrouped (ds : List Char) : String := ⟨addThousands (canonDigits ds)⟩

/-- `DataProcessor.format_amount` (data_processor.py lines 59-83): keep only
    digits and re-render with thousands separators; inputs without digits pass
    through unchanged.  (`int` on a nonempty digit string cannot raise, so the
    `except` branch of the source is dead.) -/
def format_amount (s : String) : String :=
  if s = "" then ""
  else
    let cleaned := s.data.filter Char.isDigit
    if cleaned.isEmpty then s else renderGrouped cleaned

/-! ### format_date: regex models with leftmost-search, greedy semantics.
    Because a digit is never a separator, the greedy choices of the source
    patterns are deterministic and the matchers below need no backtracking. -/

/-- Match exactly `k` digits, returning them and the rest. -/
def takeKDigits : Nat → List Char → Option (List Char × List Char)
  | 0, l => some ([], l)
  | k + 1, c :: rest =>
    if c.isDigit then (takeKDigits k rest).map (fun p => (c :: p.1, p.2))
    else none
  | _ + 1, [] => none

/-- Greedy `(\d{1,2})` followed by one separator drawn from `seps`;
    returns the digits and the rest after the separator. -/
def take12ThenSep (seps : List Char) : List Char → Option (List Char × List Char)
  | a :: b :: c :: rest =>
    if a.isDigit && b.isDigit && seps.contains c then some ([a, b], rest)
    else if a.isDigit && seps.contains b then some ([a], c :: rest)
    else none
  | [a, b] =>
    if a.isDigit && seps.contains b then some ([a], []) else none
  | _ => none

/-- Greedy trailing `(\d{1,2})` with no following constraint. -/
def take12End : List Char → Option (List Char)
  | a :: b :: _ => if a.isDigit then some (if b.isDigit then [a, b] else [a]) else none
  | [a] => if a.isDigit then some [a] else none
  | [] => none

/-- The first pattern of `format_date`: four digits, a dash-or-slash
    separator, one or two digits, another separator, one or two digits,
    anchored at the current position; returns (year, month, day). -/
def matchP1 (l : List Char) : Option (List Char × List Char × List Char) := do
  let (y, r1) ← takeKDigits 4 l
  match r1 with
  | s :: r2 =>
    if s == '-' || s == '/' then do
      let (m, r3) ← take12ThenSep ['-', '/'] r2
      let d ← take12End r3
      pure (y, m, d)
    else none
  | [] => none

/-- The second pattern of `format_date`: one or two digits, a dash-or-slash
    separator, one or two digits, another separator, four digits, anchored at
    the current position; the source reads the groups as month, day, year, so
    the result is reordered to (year, month, day). -/
def matchP2 (l : List Char) : Option (List Char × List Char × List Char) := do
  let (m, r1) ← take12ThenSep ['-', '/'] l
  let (d, r2) ← take12ThenSep ['-', '/'] r1
  let (y, _) ← takeKDigits 4 r2
  pure (y, m, d)

/-- `(\d{4})(\d{2})(\d{2})` anchored at the current position. -/
def matchP3 (l : List Char) : Option (List Char × List Char × List Char) := do
  let (y, r1) ← takeKDigits 4 l
  let (m, r2) ← takeKDigits 2 r1
  let (d, _) ← takeKDigits 2 r2
  pure (y, m, d)

/-- `re.search`: try the anchored matcher at each position, leftmost first. -/
def searchPos {α : Type} (f : List Char → Option α) : List Char → Option α
  | [] => f []
  | c :: rest =>
    match f (c :: rest) with
    | some r => some r
    | none => searchPos f rest

/-- Proleptic-Gregorian leap year, as `datetime` uses. -/
def isLeap (y : Nat) : Bool := (y % 4 == 0 && y % 100 != 0) || y % 400 == 0

/-- Days of a month, as `datetime` validates. -/
def daysInMonth (y m : Nat) : Nat :=
  if m == 2 then (if isLeap y then 29 else 28)
  else if m == 4 || m == 6 || m == 9 || m == 11 then 30
  else 31

/-- `datetime(year, month, day)` succeeds exactly on these triples. -/
def validDate (y m d : Nat) : Bool :=
  1 ≤ y && y ≤ 9999 && 1 ≤ m && m ≤ 12 && 1 ≤ d && d ≤ daysInMonth y m

/-- Numeric value of a digit list (`int(...)`). -/
def digitsToNat (l : List Char) : Nat :=
  l.foldl (fun acc c => acc * 10 + (c.toNat - '0'.toNat)) 0

/-- `str.zfill(2)` for a 1-2 digit group. -/
def zfill2 (l : List Char) : List Char := if l.length == 1 then '0' :: l else l

/-- `f"{year}/{month.zfill(2)}/{day.zfill(2)}"`. -/
def renderDate (y m d : List Char) : String :=
  ⟨y ++ '/' :: zfill2 m ++ '/' :: zfill2 d⟩

/-- One iteration of the pattern loop: leftmost match of the pattern, then the
    `datetime` validity check; an invalid date falls through to the next
    pattern (`continue`), not to the next match position. -/
def tryPattern (mf : List Char → Option (List Char × List Char × List Char))
    (l : List Char) : Option String :=
  match searchPos mf l with
  | some (y, m, d) =>
    if validDate (digitsToNat y) (digitsToNat m) (digitsToNat d) then
      some (renderDate y m d)
    else none
  | none => none

/-- `DataProcessor.format_date` (data_processor.py lines 85-120): the three
    Western/compact patterns in order, first syntactically matching and
    calendar-valid one wins, otherwise the input is returned unchanged. -/
def format_date (s : String) : String :=
  if s = "" then ""
  else
    match tryPattern matchP1 s.data with
    | some r => r
    | none =>
      match tryPattern matchP2 s.data with
      | some r => r
      | none =>
        match tryPattern matchP3 s.data with
        | some r => r
        | none => s

/-! ### archive _format_single_date (data_processor_old.py lines 182-229) -/

/-- One greedy piece `\d{lo,hi}` followed by the literal `stop`.  Because the
    group is followed by a non-digit literal, the greedy match (with
    backtracking) succeeds exactly when the maximal digit run has a length
    between `lo` and `hi` and `stop` follows it; returns the digits and the
    rest after the literal. -/
def parseNum (lo hi : Nat) (stop : Char) (l : List Char) :
    Option (List Char × List Char) :=
  if lo ≤ (l.takeWhile Char.isDigit).length ∧
      (l.takeWhile Char.isDigit).length ≤ hi then
    match l.dropWhile Char.isDigit with
    | c :: r => if c = stop then some (l.takeWhile Char.isDigit, r) else none
    | [] => none
  else none

/-- `re.match(r'民國(\d{2,3})年(\d{1,2})月(\d{1,2})日', ...)`: anchored at the
    start, any trailing text ignored. -/
def minguoMatch (l : List Char) : Option (List Char × List Char × List Char) :=
  match l with
  | c1 :: c2 :: r0 =>
    if c1 = '民' ∧ c2 = '國' then
      match parseNum 2 3 '年' r0 with
      | none => none
      | some (y, r2) =>
        match parseNum 1 2 '月' r2 with
        | none => none
        | some (m, r4) =>
          match parseNum 1 2 '日' r4 with
          | none => none
          | some (d, _) => some (y, m, d)
    else none
  | _ => none

/-- The archived Western pattern: four digits, then a dash, slash or 年, one
    or two digits, then a dash, slash or 月, one or two digits and an optional
    日, anchored at the current position (the optional trailing 日 constrains
    nothing). -/
def matchWestA (l : List Char) : Option (List Char × List Char × List Char) := do
  let (y, r1) ← takeKDigits 4 l
  match r1 with
  | s :: r2 =>
    if s == '-' || s == '/' || s == '年' then do
      let (m, r3) ← take12ThenSep ['-', '/', '月'] r2
      let d ← take12End r3
      pure (y, m, d)
    else none
  | [] => none

/-- The rendering of the Republic-calendar branch:
    `f"民國{year}年{month.zfill(2)}月{day.zfill(2)}日"`.  The branch carrying
    trailing time text (lines 207-211 of the archive) is shadowed by this one
    and never runs, and no `datetime` validation is performed here. -/
def renderMinguo (y m d : List Char) : String :=
  ⟨'民' :: '國' :: (y ++ '年' :: (zfill2 m ++ '月' :: (zfill2 d ++ ['日'])))⟩

/-- `DataProcessor._format_single_date` of archive/data_processor_old.py
    (lines 182-229): sentinel for blank input; else strip, try the anchored
    Republic-calendar form (unvalidated, trailing text discarded), then the
    validated Western and compact forms, else return the stripped input. -/
def format_single_date (s : String) : String :=
  if pyStrip s = "" then "無填寫"
  else
    match minguoMatch (pyStripL s.data) with
    | some (y, m, d) => renderMinguo y m d
    | none =>
      match tryPattern matchWestA (pyStripL s.data) with
      | some r => r
      | none =>
        match tryPattern matchP3 (pyStripL s.data) with
        | some r => r
        | none => ⟨pyStripL s.data⟩

/-! ### process_insurance_data, current and archived -/

/-- The `field_processors` dispatch of the current
    `DataProcessor.process_insurance_data` (data_processor.py lines 219-234)
    for one scalar field; unknown fields go through `clean_text` when truthy. -/
def applyFieldFormatter (field v : String) : String :=
  if field = "license_number" then format_policy_number v
  else if field = "total_premium" then format_amount v
  else if field = "birth_date" || field = "policyholder_birth_date" then
    format_date v
  else if field = "id_number" || field = "policyholder_id" then
    format_id_number v
  else if v != "" then clean_text v else v

/-- The current `DataProcessor.process_insurance_data` on the scalar entries of
    the record (`coverage_items` passes through separately, untouched). -/
def process_insurance_data (raw : List (String × String)) :
    List (String × String) :=
  raw.map (fun kv => (kv.1, applyFieldFormatter kv.1 kv.2))

/-- The current `process_insurance_data` with Python exception flow made
    explicit; the typed record admits no throw site. -/
def processInsuranceDataE : List (String × String) →
    Except String (List (String × String))
  | [] => Except.ok []
  | kv :: rest => do
    let v := applyFieldFormatter kv.1 kv.2
    let tail ← processInsuranceDataE rest
    return (kv.1, v) :: tail

/-- The `field_processors` dispatch of the archived
    `DataProcessor.process_insurance_data` (data_processor_old.py lines
    295-303), which additionally formats the two period fields and uses the
    archived id formatter. -/
def applyProcessorOld (field v : String) : String :=
  if field = "license_number" then format_policy_number v
  else if field = "total_premium" then format_amount v
  else if field = "birth_date" || field = "policyholder_birth_date" then
    format_date v
  else if field = "id_number" || field = "policyholder_id" then
    format_id_number_old v
  else if field = "compulsory_insurance_period"
       || field = "optional_insurance_period" then
    format_insurance_period v
  else if v != "" then clean_text v else v

/-- The archived `DataProcessor.process_insurance_data` (data_processor_old.py
    lines 281-315) on the scalar entries: per-field formatting, then the final
    loop rewriting every blank string value to the unfilled sentinel.  Keys
    absent from the input are absent from the output; no access can raise. -/
def process_insurance_data_old (raw : List (String × String)) :
    List (String × String) :=
  raw.map (fun kv =>
    let v := applyProcessorOld kv.1 kv.2
    (kv.1, if pyStrip v = "" then "無填寫" else v))

/-- The same derivation with Python exception flow made explicit: every step
    that could in principle raise is run in `Except`.  For a typed
    `RawRecord` every dictionary access goes through a defaulted `get`, so no
    throw site exists. -/
def processOcrDataE (raw : RawRecord) : Except String ProcessedTokens := do
  let gender := getS raw.gender
  let pg := getS raw.policyholder_gender
  let vt := getS raw.vehicle_type
  let rel := getS raw.relationship
  let gt := genderTokens gender
  let pgt := genderTokens pg
  let vtt := vehicleTokens vt
  let amount := deriveOptionalAmount raw.compulsory_insurance_period
    raw.optional_insurance_period raw.coverage_items
  return { gender_male := gt.1
           gender_female := gt.2
           policyholder_gender_male := pgt.1
           policyholder_gender_female := pgt.2
           vehicle_type_moto := vtt.1
           vehicle_type_car := vtt.2
           relationship_tokens := relTokens rel relationshipMapKeys
           check_relationship_tokens := relTokens rel relationship_options
           CHECK_1 := "☑ "
           CHECK_2 := "☑ "
           check_compulsory_insurance_period :=
             periodCheck raw.compulsory_insurance_period
           check_optional_insurance_period :=
             periodCheck raw.optional_insurance_period
           gender := blankToBox gender
           policyholder_gender := blankToBox pg
           relationship := blankToBox rel
           vehicle_type := vt
           optional_insurance_amount := amount
           compulsory_insurance_amount := "" }

/-! ## Predicates and concrete records used by the claims -/

/-- A selection token value: selected (checked box plus trailing space) or
    unselected (plain box). -/
def isGlyph (s : String) : Prop := s = "☑ " ∨ s = "□"

/-- The vehicle-damage test of the line-243 loop, as a predicate. -/
def carDamagePred (it : CoverageItem) : Bool :=
  hasSubstr it.type_name "車體損失保險"

/-- The third-party-liability parent test of the line-248 loop. -/
def thirdPartyPred (it : CoverageItem) : Bool :=
  hasSubstr it.type_name "第三人傷害責任險"

/-- The per-person-injury sub-item test of the line-252 loop. -/
def perPersonPred (s : CoverageSub) : Bool :=
  hasSubstr s.type_name "每一個人傷害"

/-- The personal-id shape: one uppercase letter followed by nine digits. -/
def personalIdShape (s : String) : Prop :=
  ∃ c ds, s.data = c :: ds ∧ 'A' ≤ c ∧ c ≤ 'Z' ∧ ds.length = 9 ∧
    ∀ x ∈ ds, x.isDigit = true

/-- The organization-id shape: exactly eight digits. -/
def orgIdShape (s : String) : Prop :=
  s.data.length = 8 ∧ ∀ x ∈ s.data, x.isDigit = true

instance (s : String) : Decidable (orgIdShape s) := by
  unfold orgIdShape
  infer_instance

/-- A record with an optional-coverage period and one vehicle-damage item
    whose amount carries the 萬 unit suffix (the spec's concrete scenario). -/
def rawC1 : RawRecord :=
  { optional_insurance_period := some "民國114年5月21日起",
    coverage_items := [⟨"車體損失保險(乙式)", "40.2萬", []⟩] }

/-- A record whose vehicle-category field is present but blank. -/
def rawVehicleBlank : RawRecord := { vehicle_type := some "" }

/-- A record with blank and sentinel-valued echo fields. -/
def rawEchoBlank : RawRecord :=
  { gender := some "", relationship := some "無填寫" }

/-! # Theorems -/

/-! ## Helper lemmas about the selection tokens -/

theorem genderTokens_fst_glyph (g : String) : isGlyph (genderTokens g).1 := by
  unfold genderTokens isGlyph
  split_ifs <;> simp

theorem genderTokens_snd_glyph (g : String) : isGlyph (genderTokens g).2 := by
  unfold genderTokens isGlyph
  split_ifs <;> simp

theorem vehicleTokens_fst_glyph (v : String) : isGlyph (vehicleTokens v).1 := by
  unfold vehicleTokens isGlyph
  split_ifs <;> simp

theorem vehicleTokens_snd_glyph (v : String) : isGlyph (vehicleTokens v).2 := by
  unfold vehicleTokens isGlyph
  split_ifs <;> simp

theorem periodCheck_glyph (v : Option String) : isGlyph (periodCheck v) := by
  unfold periodCheck isGlyph
  cases normField v with
  | none => simp
  | some s =>
    dsimp only
    split_ifs <;> simp

theorem relTokens_glyph (rel : String) (opts : List String) :
    ∀ t ∈ relTokens rel opts, isGlyph t := by
  intro t ht
  simp only [relTokens, List.mem_map] at ht
  obtain ⟨o, _, rfl⟩ := ht
  unfold isGlyph
  split_ifs <;> simp

theorem relTokens_all_box (rel : String) (opts : List String)
    (h : ∀ o ∈ opts, rel ≠ o) : ∀ t ∈ relTokens rel opts, t = "□" := by
  intro t ht
  simp only [relTokens, List.mem_map] at ht
  obtain ⟨o, ho, rfl⟩ := ht
  rw [if_neg (h o ho)]

theorem relTokens_count_sel_zero (rel : String) (opts : List String)
    (h : ∀ o ∈ opts, rel ≠ o) : (relTokens rel opts).count "☑ " = 0 := by
  refine List.count_eq_zero.mpr ?_
  intro hmem
  exact absurd (relTokens_all_box rel opts h _ hmem) (by decide)

theorem relTokens_count_box_full (rel : String) (opts : List String)
    (h : ∀ o ∈ opts, rel ≠ o) : (relTokens rel opts).count "□" = opts.length := by
  have hlen : (relTokens rel opts).length = opts.length := by simp [relTokens]
  rw [← hlen]
  exact List.count_eq_length.mpr
    (fun b hb => (relTokens_all_box rel opts h b hb).symm)

theorem relTokens_count (rel : String) (opts : List String) (hn : opts.Nodup)
    (hr : rel ∈ opts) :
    (relTokens rel opts).count "☑ " = 1 ∧
    (relTokens rel opts).count "□" = opts.length - 1 := by
  induction opts with
  | nil => cases hr
  | cons o t ih =>
    have hnt : t.Nodup := hn.of_cons
    have hcons : relTokens rel (o :: t)
        = (if rel = o then "☑ " else "□") :: relTokens rel t := rfl
    by_cases ho : rel = o
    · have hnotin : ∀ o' ∈ t, rel ≠ o' := by
        intro o' ho' he
        exact (List.nodup_cons.mp hn).1 (by rw [← ho, he]; exact ho')
      have hsel0 := relTokens_count_sel_zero rel t hnotin
      have hboxlen := relTokens_count_box_full rel t hnotin
      rw [hcons, if_pos ho]
      constructor
      · rw [List.count_cons]
        simp [hsel0]
      · rw [List.count_cons]
        simp [hboxlen]
    · have hrt : rel ∈ t := by
        rcases List.mem_cons.mp hr with h | h
        · exact absurd h ho
        · exact h
      obtain ⟨ih1, ih2⟩ := ih hnt hrt
      have htpos : 0 < t.length := List.length_pos.mpr (List.ne_nil_of_mem hrt)
      rw [hcons, if_neg ho]
      constructor
      · rw [List.count_cons]
        simp [ih1]
      · rw [List.count_cons]
        simp only [List.length_cons, ih2]
        have hne : (("□" : String) == "☑ ") = false := by decide
        simp
        omega

theorem relTokens_zip_iff (rel : String) (opts : List String) :
    ∀ p ∈ opts.zip (relTokens rel opts), (p.2 = "☑ " ↔ p.1 = rel) := by
  induction opts with
  | nil => simp [relTokens]
  | cons o t ih =>
    intro p hp
    simp only [relTokens, List.map_cons, List.zip_cons_cons, List.mem_cons] at hp
    rcases hp with rfl | hp
    · by_cases ho : rel = o
      · simp [if_pos ho, ho.symm]
      · simp only [if_neg ho]
        constructor
        · intro h
          exact absurd h (by decide)
        · intro h
          exact absurd h.symm ho
    · exact ih p hp

theorem normStr_of_options (r : String) (hr : r ∈ relationship_options) :
    normStr r = r := by
  simp only [relationship_options, List.mem_cons, List.not_mem_nil, or_false] at hr
  rcases hr with rfl | rfl | rfl | rfl | rfl | rfl | rfl | rfl <;> decide

/-! ## Helper lemmas about the coverage-hierarchy lookups -/

theorem find_car_damage_eq (items : List CoverageItem) :
    find_car_damage_amount items
      = ((items.find? carDamagePred).map CoverageItem.insured_amount).getD "" := by
  induction items with
  | nil => rfl
  | cons it rest ih =>
    by_cases h : carDamagePred it
    · rw [List.find?_cons_of_pos _ h]
      simp only [find_car_damage_amount, carDamagePred] at *
      rw [if_pos h]
      rfl
    · rw [List.find?_cons_of_neg _ h]
      simp only [find_car_damage_amount, carDamagePred] at *
      rw [if_neg (by simpa using h)]
      exact ih

theorem findSubAmount_eq (subs : List CoverageSub) :
    findSubAmount subs = (subs.find? perPersonPred).map CoverageSub.insured_amount := by
  induction subs with
  | nil => rfl
  | cons s rest ih =>
    by_cases h : perPersonPred s
    · rw [List.find?_cons_of_pos _ h]
      simp only [findSubAmount, perPersonPred] at *
      rw [if_pos h]
      rfl
    · rw [List.find?_cons_of_neg _ h]
      simp only [findSubAmount, perPersonPred] at *
      rw [if_neg (by simpa using h)]
      exact ih

theorem find_third_party_eq (items : List CoverageItem) :
    find_third_party_personal_amount items
      = (items.findSome? (fun it =>
          if thirdPartyPred it then findSubAmount it.sub_items
          else none)).getD "" := by
  induction items with
  | nil => rfl
  | cons it rest ih =>
    rw [List.findSome?_cons]
    by_cases h : thirdPartyPred it
    · rw [if_pos h]
      simp only [find_third_party_personal_amount, thirdPartyPred] at *
      rw [if_pos h]
      cases hs : findSubAmount it.sub_items with
      | none => exact ih
      | some a => rfl
    · rw [if_neg h]
      simp only [find_third_party_personal_amount, thirdPartyPred] at *
      rw [if_neg (by simpa using h)]
      exact ih

/-! ## Claim C10 -/

/-- Claim C10: every selection token produced by `process_ocr_data` — the two
    gender pairs, the two vehicle-category tokens, all sixteen relationship
    tokens, CHECK_1, CHECK_2, and the two insurance-period presence tokens —
    is either the selected glyph (checked box plus one trailing space) or the
    unselected glyph (plain box, no trailing space); never empty, never any
    other string. -/
theorem C10_tokens_two_valued (raw : RawRecord) :
    isGlyph (processOcrData raw).gender_male ∧
    isGlyph (processOcrData raw).gender_female ∧
    isGlyph (processOcrData raw).policyholder_gender_male ∧
    isGlyph (processOcrData raw).policyholder_gender_female ∧
    isGlyph (processOcrData raw).vehicle_type_moto ∧
    isGlyph (processOcrData raw).vehicle_type_car ∧
    (∀ t ∈ (processOcrData raw).relationship_tokens, isGlyph t) ∧
    (∀ t ∈ (processOcrData raw).check_relationship_tokens, isGlyph t) ∧
    isGlyph (processOcrData raw).CHECK_1 ∧
    isGlyph (processOcrData raw).CHECK_2 ∧
    isGlyph (processOcrData raw).check_compulsory_insurance_period ∧
    isGlyph (processOcrData raw).check_optional_insurance_period :=
  ⟨genderTokens_fst_glyph _, genderTokens_snd_glyph _,
   genderTokens_fst_glyph _, genderTokens_snd_glyph _,
   vehicleTokens_fst_glyph _, vehicleTokens_snd_glyph _,
   relTokens_glyph _ _, relTokens_glyph _ _,
   Or.inl rfl, Or.inl rfl,
   periodCheck_glyph _, periodCheck_glyph _⟩

/-- Witness for C10 at a concrete record, discharging the membership
    hypotheses of the relationship-token conjuncts. -/
theorem C10_witness :
    isGlyph (processOcrData rawEchoBlank).gender_male ∧ isGlyph "□" :=
  ⟨(C10_tokens_two_valued rawEchoBlank).1,
   (C10_tokens_two_valued rawEchoBlank).2.2.2.2.2.2.1 "□" (by decide)⟩

/-! ## Claim C3 -/

/-- Claim C3: a raw relationship value exactly equal to one of the eight known
    category strings selects exactly one of the eight current-scheme tokens
    (the one whose option matches the value) and leaves the other seven
    unselected, with the legacy token family populated identically; any other
    value, including a missing or blank one, leaves all sixteen tokens
    unselected. -/
theorem C3_relationship_exclusivity (raw : RawRecord) :
    (processOcrData raw).check_relationship_tokens
        = (processOcrData raw).relationship_tokens ∧
    (∀ r, raw.relationship = some r → r ∈ relationship_options →
      (processOcrData raw).relationship_tokens.count "☑ " = 1 ∧
      (processOcrData raw).relationship_tokens.count "□" = 7 ∧
      (∀ p ∈ relationship_options.zip (processOcrData raw).relationship_tokens,
        (p.2 = "☑ " ↔ p.1 = r))) ∧
    ((∀ r, raw.relationship = some r → r ∉ relationship_options) →
      (∀ t ∈ (processOcrData raw).relationship_tokens, t = "□") ∧
      (∀ t ∈ (processOcrData raw).check_relationship_tokens, t = "□")) := by
  refine ⟨rfl, ?_, ?_⟩
  · intro r hsome hmem
    have hrel : getS raw.relationship = r := by
      simp [getS, normField, hsome, normStr_of_options r hmem]
    have htok : (processOcrData raw).relationship_tokens
        = relTokens r relationship_options := by
      simp [processOcrData, hrel]
      rfl
    rw [htok]
    have hn : relationship_options.Nodup := by decide
    obtain ⟨h1, h2⟩ := relTokens_count r relationship_options hn hmem
    exact ⟨h1, h2, relTokens_zip_iff r relationship_options⟩
  · intro h
    have hne : ∀ o ∈ relationship_options, getS raw.relationship ≠ o := by
      intro o ho
      cases hx : raw.relationship with
      | none =>
        have hval : getS (none : Option String) = "" := rfl
        rw [hval]
        intro hco
        rw [← hco] at ho
        exact absurd ho (by decide)
      | some r =>
        have hr := h r hx
        have hval : getS (some r) = normStr r := rfl
        rw [hval]
        unfold normStr
        split_ifs
        · intro hco
          rw [← hco] at ho
          exact absurd ho (by decide)
        · intro hco
          exact hr (hco ▸ ho)
    constructor
    · exact relTokens_all_box _ _ hne
    · exact relTokens_all_box _ _ hne

/-- Witness for C3 at the spec's concrete scenario: relationship 子女 selects
    exactly one current-scheme token, and the legacy family equals the
    current one. -/
theorem C3_witness :
    (processOcrData rawEchoBlank).check_relationship_tokens
        = (processOcrData rawEchoBlank).relationship_tokens ∧
    (processOcrData { relationship := some "子女" }).relationship_tokens.count "☑ " = 1 :=
  ⟨(C3_relationship_exclusivity rawEchoBlank).1,
   ((C3_relationship_exclusivity { relationship := some "子女" }).2.1
     "子女" rfl (by decide)).1⟩

/-! ## Claim C9 -/

/-- Counterexample to claim C9 as stated: the vehicle-category echo of a blank
    input stays the empty string — the line 234-237 coercion loop covers only
    policyholder_gender, relationship and gender, not vehicle_type — whereas
    the claim demands the blank-placeholder glyph for it as well. -/
theorem C9_counterexample :
    (processOcrData rawVehicleBlank).vehicle_type = "" ∧
    (processOcrData rawVehicleBlank).vehicle_type ≠ "□" := by
  constructor
  · rfl
  · decide

/-- Claim C9 as amended: the gender, relationship and policyholder-gender
    echoes of a blank, missing or sentinel-valued input are the single
    blank-placeholder glyph and are never the empty string; the
    vehicle-category echo is passed through unchanged (blank stays blank).
    `getS` is the normalized field read: it is empty exactly when the raw
    field is missing, empty, or strips to the unfilled sentinel. -/
theorem C9_blank_echo_amended (raw : RawRecord) :
    (getS raw.gender = "" → (processOcrData raw).gender = "□") ∧
    (getS raw.policyholder_gender = "" →
      (processOcrData raw).policyholder_gender = "□") ∧
    (getS raw.relationship = "" → (processOcrData raw).relationship = "□") ∧
    (processOcrData raw).gender ≠ "" ∧
    (processOcrData raw).policyholder_gender ≠ "" ∧
    (processOcrData raw).relationship ≠ "" ∧
    (processOcrData raw).vehicle_type = getS raw.vehicle_type := by
  have hbox : ∀ s : String, blankToBox s ≠ "" := by
    intro s
    unfold blankToBox
    split_ifs with h
    · decide
    · exact h
  have hval : ∀ s : String, s = "" → blankToBox s = "□" := by
    intro s h
    unfold blankToBox
    rw [if_pos h]
  exact ⟨hval _, hval _, hval _, hbox _, hbox _, hbox _, rfl⟩

/-- Witness for C9 at a record whose gender is the empty string and whose
    relationship is the unfilled sentinel. -/
theorem C9_witness :
    (processOcrData rawEchoBlank).gender = "□" ∧
    (processOcrData rawEchoBlank).relationship = "□" :=
  ⟨(C9_blank_echo_amended rawEchoBlank).1 (by decide),
   (C9_blank_echo_amended rawEchoBlank).2.2.1 (by decide)⟩

/-! ## Claim C1 -/

/-- Counterexample to claim C1 as stated: with an optional-coverage period
    present and a vehicle-damage item insured for "40.2萬", the derived
    optional amount is the amount string verbatim, unit suffix included;
    the claim demands the suffix-stripped "40.2". -/
theorem C1_counterexample :
    (processOcrData rawC1).optional_insurance_amount = "40.2萬" ∧
    (processOcrData rawC1).optional_insurance_amount ≠ "40.2" := by
  constructor
  · rfl
  · decide

/-- Claim C1 as amended: with a compulsory period present and no optional
    period the derived amount is empty; with an optional period present it is
    the insured amount of the first vehicle-damage item taken verbatim (no
    unit-suffix character is stripped) when that amount is non-empty, and
    otherwise the first per-person-injury sub-item amount under a third-party
    liability parent; with neither period present it is empty. -/
theorem C1_optional_amount_amended (raw : RawRecord) :
    (truthy raw.compulsory_insurance_period = true →
      truthy raw.optional_insurance_period = false →
      (processOcrData raw).optional_insurance_amount = "") ∧
    (truthy raw.optional_insurance_period = true →
      (∀ it, raw.coverage_items.find? carDamagePred = some it →
        it.insured_amount ≠ "" →
        (processOcrData raw).optional_insurance_amount = it.insured_amount) ∧
      ((raw.coverage_items.find? carDamagePred = none ∨
        (∃ it, raw.coverage_items.find? carDamagePred = some it ∧
          it.insured_amount = "")) →
        (processOcrData raw).optional_insurance_amount =
          ((raw.coverage_items.findSome? (fun it =>
            if thirdPartyPred it then
              (it.sub_items.find? perPersonPred).map CoverageSub.insured_amount
            else none)).getD ""))) ∧
    (truthy raw.compulsory_insurance_period = false →
      truthy raw.optional_insurance_period = false →
      (processOcrData raw).optional_insurance_amount = "") := by
  have hout : (processOcrData raw).optional_insurance_amount
      = deriveOptionalAmount raw.compulsory_insurance_period
          raw.optional_insurance_period raw.coverage_items := rfl
  refine ⟨?_, ?_, ?_⟩
  · intro h1 h2
    rw [hout]
    unfold deriveOptionalAmount
    rw [h1, h2]
    rfl
  · intro hopt
    have hcond : (truthy raw.compulsory_insurance_period
        && !(truthy raw.optional_insurance_period)) = false := by
      rw [hopt]
      simp
    constructor
    · intro it hfind hne
      rw [hout]
      unfold deriveOptionalAmount
      rw [hcond, hopt]
      simp only [if_false, if_true, Bool.false_eq_true, reduceIte]
      have hcar : find_car_damage_amount raw.coverage_items = it.insured_amount := by
        rw [find_car_damage_eq, hfind]
        rfl
      rw [hcar]
      rw [if_pos (by simpa using hne)]
    · intro hcase
      rw [hout]
      unfold deriveOptionalAmount
      rw [hcond, hopt]
      simp only [if_false, if_true, Bool.false_eq_true, reduceIte]
      have hcar : find_car_damage_amount raw.coverage_items = "" := by
        rw [find_car_damage_eq]
        rcases hcase with h | ⟨it, hfind, hemp⟩
        · rw [h]
          rfl
        · rw [hfind]
          simp [hemp]
      rw [hcar]
      rw [if_neg (by simp)]
      rw [find_third_party_eq]
      simp only [findSubAmount_eq]
  · intro h1 h2
    rw [hout]
    unfold deriveOptionalAmount
    rw [h1, h2]
    rfl

/-- Witness for C1 at the concrete record of the counterexample, deriving the
    verbatim vehicle-damage amount from the amended claim. -/
theorem C1_witness :
    (processOcrData rawC1).optional_insurance_amount = "40.2萬" :=
  ((C1_optional_amount_amended rawC1).2.1 (by decide)).1
    ⟨"車體損失保險(乙式)", "40.2萬", []⟩ (by decide) (by decide)

/-! ## Claim C7 -/

/-- Claim C7: for every raw record — any combination of present, missing or
    blank scalar fields and any coverage-item list — the selection-derivation
    step and the field normalizers terminate normally and raise no exception:
    the exception-explicit embeddings always return `ok` of the pure results.
    (Template loading and document writing live outside these functions.) -/
theorem C7_derivation_total (raw : RawRecord)
    (scalars : List (String × String)) :
    processOcrDataE raw = Except.ok (processOcrData raw) ∧
    processInsuranceDataE scalars = Except.ok (process_insurance_data scalars) := by
  constructor
  · rfl
  · induction scalars with
    | nil => rfl
    | cons kv rest ih =>
      simp only [processInsuranceDataE, process_insurance_data, List.map_cons,
        ih, bind, Except.bind]
      rfl

/-! ## Claim C8: helper lemmas about thousands grouping -/

theorem groupRev_filter (l : List Char) :
    ∀ n, (groupRev l n).filter Char.isDigit = l.filter Char.isDigit := by
  induction l with
  | nil => intro n; rfl
  | cons c rest ih =>
    intro n
    unfold groupRev
    have hc : (',' : Char).isDigit = false := by decide
    split_ifs with h
    · simp [List.filter_cons, hc, ih]
    · simp [List.filter_cons, ih]

theorem addThousands_filter (ds : List Char) (h : ∀ c ∈ ds, c.isDigit) :
    (addThousands ds).filter Char.isDigit = ds := by
  unfold addThousands
  rw [List.filter_reverse, groupRev_filter, List.filter_reverse,
    List.reverse_reverse]
  exact List.filter_eq_self.mpr h

theorem dropWhile_dropWhile_same {α : Type} (p : α → Bool) (l : List α) :
    (l.dropWhile p).dropWhile p = l.dropWhile p := by
  induction l with
  | nil => rfl
  | cons a t ih =>
    by_cases h : p a
    · rw [List.dropWhile_cons_of_pos h]
      exact ih
    · rw [List.dropWhile_cons_of_neg h, List.dropWhile_cons_of_neg h]

theorem canonDigits_ne_nil (ds : List Char) : canonDigits ds ≠ [] := by
  unfold canonDigits
  split_ifs with h
  · simp
  · exact fun hc => h (by simp [hc])

theorem canonDigits_all_digits (ds : List Char) (h : ∀ c ∈ ds, c.isDigit) :
    ∀ c ∈ canonDigits ds, c.isDigit := by
  intro c hc
  unfold canonDigits at hc
  split_ifs at hc with hx
  · simp at hc
    subst hc
    decide
  · exact h c ((List.dropWhile_sublist _).subset hc)

theorem canonDigits_idem (ds : List Char) :
    canonDigits (canonDigits ds) = canonDigits ds := by
  by_cases h : (ds.dropWhile (fun c => c == '0')).isEmpty
  · have h1 : canonDigits ds = ['0'] := by
      unfold canonDigits
      rw [if_pos h]
    rw [h1]
    decide
  · have h1 : canonDigits ds = ds.dropWhile (fun c => c == '0') := by
      unfold canonDigits
      rw [if_neg h]
    rw [h1]
    unfold canonDigits
    rw [dropWhile_dropWhile_same, if_neg h]

theorem renderGrouped_data (ds : List Char) :
    (renderGrouped ds).data = addThousands (canonDigits ds) := rfl

theorem renderGrouped_digits (ds : List Char) (h : ∀ c ∈ ds, c.isDigit) :
    (renderGrouped ds).data.filter Char.isDigit = canonDigits ds := by
  rw [renderGrouped_data]
  exact addThousands_filter _ (canonDigits_all_digits ds h)

theorem renderGrouped_ne_empty (ds : List Char) (h : ∀ c ∈ ds, c.isDigit) :
    renderGrouped ds ≠ "" := by
  intro hc
  have hdata : (renderGrouped ds).data = [] := by rw [hc]
  have := renderGrouped_digits ds h
  rw [hdata] at this
  exact canonDigits_ne_nil ds this.symm

/-! ## Claim C8 -/

/-- Claim C8: amount normalization is idempotent — re-normalizing any output
    of `format_amount` returns it unchanged, for every input string. -/
theorem C8_amount_idempotent (s : String) :
    format_amount (format_amount s) = format_amount s := by
  by_cases h0 : s = ""
  · subst h0
    rfl
  · have hunf : format_amount s =
        (if (s.data.filter Char.isDigit).isEmpty then s
         else renderGrouped (s.data.filter Char.isDigit)) := by
      unfold format_amount
      rw [if_neg h0]
    by_cases hd : (s.data.filter Char.isDigit).isEmpty
    · have hfs : format_amount s = s := by rw [hunf, if_pos hd]
      rw [hfs]
      exact hfs
    · have hfs : format_amount s = renderGrouped (s.data.filter Char.isDigit) := by
        rw [hunf, if_neg hd]
      have hall : ∀ c ∈ s.data.filter Char.isDigit, c.isDigit := by
        intro c hc
        exact (List.mem_filter.mp hc).2
      rw [hfs]
      have hne := renderGrouped_ne_empty _ hall
      have hdig := renderGrouped_digits _ hall
      have hcne : (canonDigits (s.data.filter Char.isDigit)).isEmpty = false := by
        cases hx : canonDigits (s.data.filter Char.isDigit) with
        | nil => exact absurd hx (canonDigits_ne_nil _)
        | cons a t => rfl
      have hmain : format_amount (renderGrouped (s.data.filter Char.isDigit))
          = (if (canonDigits (s.data.filter Char.isDigit)).isEmpty then
              renderGrouped (s.data.filter Char.isDigit)
             else renderGrouped (canonDigits (s.data.filter Char.isDigit))) := by
        unfold format_amount
        rw [if_neg hne]
        simp only [hdig]
      rw [hmain, hcne]
      simp only [Bool.false_eq_true, if_false]
      unfold renderGrouped
      rw [canonDigits_idem]

/-! ## Claim C6 -/

theorem idCheck_iff (s : String) : idCheck s = true ↔ personalIdShape s := by
  unfold idCheck personalIdShape
  cases hd : s.data with
  | nil => simp
  | cons c rest =>
    simp only [Bool.and_eq_true, decide_eq_true_eq, beq_iff_eq,
      List.all_eq_true]
    constructor
    · rintro ⟨⟨⟨h1, h2⟩, h3⟩, h4⟩
      exact ⟨c, rest, rfl, h1, h2, h3, h4⟩
    · rintro ⟨c2, ds2, heq, h1, h2, h3, h4⟩
      obtain ⟨rfl, rfl⟩ := List.cons.injEq c rest c2 ds2 ▸ heq
      exact ⟨⟨⟨h1, h2⟩, h3⟩, h4⟩

theorem orgIdShape_not_personal (s : String) (h : orgIdShape s) :
    ¬ personalIdShape s := by
  rintro ⟨c, ds, heq, _, _, hlen, _⟩
  obtain ⟨h8, _⟩ := h
  rw [heq] at h8
  simp [hlen] at h8

/-- Counterexample to claim C6 as stated: "1234-5678" cleans to "12345678",
    which matches the eight-digit organization shape the claim lists among the
    accepted identifier shapes, yet `format_id_number` returns the original
    raw value, not the cleaned string. -/
theorem C6_counterexample :
    cleanAlnumUpper "1234-5678" = "12345678" ∧
    orgIdShape "12345678" ∧
    format_id_number "1234-5678" = "1234-5678" ∧
    format_id_number "1234-5678" ≠ "12345678" := by
  refine ⟨rfl, by decide, rfl, by decide⟩

/-- Claim C6 as amended: `format_id_number` strips all non-alphanumerics and
    uppercases, and returns the cleaned string iff it matches the single
    letter + nine digit personal-id shape, the original raw value otherwise —
    in particular an eight-digit organization number passes through unchanged;
    `format_policy_number` returns the cleaned string iff its length lies
    between 8 and 20, the original raw value otherwise. -/
theorem C6_id_formatter_amended (s : String) (h : s ≠ "") :
    (personalIdShape (cleanAlnumUpper s) →
      format_id_number s = cleanAlnumUpper s) ∧
    (¬ personalIdShape (cleanAlnumUpper s) → format_id_number s = s) ∧
    (orgIdShape (cleanAlnumUpper s) → format_id_number s = s) ∧
    (8 ≤ (cleanAlnumUpper s).length → (cleanAlnumUpper s).length ≤ 20 →
      format_policy_number s = cleanAlnumUpper s) ∧
    ((cleanAlnumUpper s).length < 8 ∨ 20 < (cleanAlnumUpper s).length →
      format_policy_number s = s) := by
  refine ⟨?_, ?_, ?_, ?_, ?_⟩
  · intro hp
    unfold format_id_number
    rw [if_neg h, if_pos ((idCheck_iff _).mpr hp)]
  · intro hp
    unfold format_id_number
    rw [if_neg h, if_neg (fun hc => hp ((idCheck_iff _).mp hc))]
  · intro ho
    unfold format_id_number
    rw [if_neg h, if_neg (fun hc =>
      orgIdShape_not_personal _ ho ((idCheck_iff _).mp hc))]
  · intro h1 h2
    unfold format_policy_number
    rw [if_neg h, if_pos (by simp [h1, h2])]
  · intro h12
    unfold format_policy_number
    rw [if_neg h, if_neg (by simp; omega)]

/-- Witness for C6: a lowercase personal id with a stray symbol is cleaned,
    uppercased and accepted; the same input passes the registration-number
    length check. -/
theorem C6_witness :
    format_id_number "a123456789#" = "A123456789" ∧
    format_policy_number "a123456789#" = "A123456789" := by
  have h := C6_id_formatter_amended "a123456789#" (by decide)
  refine ⟨h.1 ?_, h.2.2.2.1 (by decide) (by decide)⟩
  exact ⟨'A', ['1', '2', '3', '4', '5', '6', '7', '8', '9'],
    by decide, by decide, by decide, by decide, by decide⟩

/-! ## Claim C4 -/

theorem lookup_map_entry {β : Type} (f : String → String → β)
    (raw : List (String × String)) (k : String) :
    (raw.map (fun kv => (kv.1, f kv.1 kv.2))).lookup k
      = (raw.lookup k).map (f k) := by
  induction raw with
  | nil => rfl
  | cons kv rest ih =>
    obtain ⟨k1, v1⟩ := kv
    by_cases h : k = k1
    · subst h
      simp [List.lookup]
    · have hb : (k == k1) = false := beq_eq_false_iff_ne.mpr h
      simp [List.lookup, hb, ih]

/-- Counterexample to claim C4 as stated: a key absent from the raw record is
    absent from the processed output of the archived
    `process_insurance_data` — the per-key iteration only visits present keys —
    rather than being filled with the unfilled sentinel as the claim demands. -/
theorem C4_counterexample :
    (process_insurance_data_old [("insured_person", "王小明")]).lookup
        "birth_date" = none ∧
    (process_insurance_data_old [("insured_person", "王小明")]).lookup
        "birth_date" ≠ some "無填寫" := by
  refine ⟨rfl, by decide⟩

/-- Claim C4 as amended: every field present in the raw record whose
    type-specific normalization is empty or whitespace-only is rewritten to
    the unfilled sentinel (and a non-blank normalized value is kept as is);
    a missing key raises no exception but is simply absent from the processed
    output, not present with the sentinel. -/
theorem C4_sentinel_amended (raw : List (String × String)) :
    (∀ k v, raw.lookup k = some v → pyStrip (applyProcessorOld k v) = "" →
      (process_insurance_data_old raw).lookup k = some "無填寫") ∧
    (∀ k v, raw.lookup k = some v → pyStrip (applyProcessorOld k v) ≠ "" →
      (process_insurance_data_old raw).lookup k
        = some (applyProcessorOld k v)) ∧
    (∀ k, raw.lookup k = none →
      (process_insurance_data_old raw).lookup k = none) := by
  have hchar : ∀ k, (process_insurance_data_old raw).lookup k
      = (raw.lookup k).map (fun v =>
          if pyStrip (applyProcessorOld k v) = "" then "無填寫"
          else applyProcessorOld k v) := by
    intro k
    exact lookup_map_entry
      (fun k v => if pyStrip (applyProcessorOld k v) = "" then "無填寫"
                  else applyProcessorOld k v) raw k
  refine ⟨?_, ?_, ?_⟩
  · intro k v hv hblank
    rw [hchar, hv]
    simp [hblank]
  · intro k v hv hfull
    rw [hchar, hv]
    simp [hfull]
  · intro k hv
    rw [hchar, hv]
    rfl

/-- Witness for C4: a whitespace-only birth date is normalized to the unfilled
    sentinel. -/
theorem C4_witness :
    (process_insurance_data_old [("birth_date", "  ")]).lookup "birth_date"
      = some "無填寫" :=
  (C4_sentinel_amended _).1 "birth_date" "  " (by decide) (by decide)

/-! ## Claim C2: helper lemmas about the run-merge loop -/

theorem joinTexts_nil : joinTexts [] = "" := rfl

theorem joinTexts_cons (r : TextRun) (l : List TextRun) :
    joinTexts (r :: l) = r.text ++ joinTexts l := rfl

theorem joinTexts_append (a b : List TextRun) :
    joinTexts (a ++ b) = joinTexts a ++ joinTexts b := by
  induction a with
  | nil => simp [joinTexts_nil]
  | cons r t ih =>
    simp only [List.cons_append, joinTexts_cons, ih, String.append_assoc]

theorem joinTexts_blankRuns (l : List TextRun) :
    joinTexts (blankRuns l) = "" := by
  induction l with
  | nil => rfl
  | cons r t ih =>
    simp only [blankRuns, List.map_cons, joinTexts_cons] at *
    rw [ih]
    rfl

theorem tryMatch_some_spec (tag : String) :
    ∀ (l : List TextRun) (acc : String) (k : Nat),
      tryMatch tag l acc = some k →
      1 ≤ k ∧ k ≤ l.length ∧ acc ++ joinTexts (l.take k) = tag := by
  intro l
  induction l with
  | nil =>
    intro acc k h
    exact absurd h (by simp [tryMatch])
  | cons r rest ih =>
    intro acc k h
    unfold tryMatch at h
    by_cases h1 : acc ++ r.text = tag
    · rw [if_pos h1] at h
      have hk : 1 = k := by injection h
      subst hk
      refine ⟨le_refl 1, by simp, ?_⟩
      rw [List.take_succ_cons, List.take_zero, joinTexts_cons, joinTexts_nil,
        String.append_empty]
      exact h1
    · rw [if_neg h1] at h
      by_cases h2 : pyStartsWith tag (acc ++ r.text) = true
      · rw [if_pos h2] at h
        cases hx : tryMatch tag rest (acc ++ r.text) with
        | none => rw [hx] at h; exact absurd h (by simp)
        | some k2 =>
          rw [hx] at h
          have hk : k2 + 1 = k := by injection h
          subst hk
          obtain ⟨hk1, hk2, hk3⟩ := ih (acc ++ r.text) k2 hx
          refine ⟨by omega, by simp; omega, ?_⟩
          rw [List.take_succ_cons, joinTexts_cons, ← String.append_assoc]
          exact hk3
      · rw [if_neg h2] at h
        exact absurd h (by simp)

theorem tryMatch_of_join (tag : String) :
    ∀ (M : List TextRun) (S : List TextRun) (acc : String), M ≠ [] →
      acc ++ joinTexts M = tag →
      (∀ k, k < M.length → 0 < k → acc ++ joinTexts (M.take k) ≠ tag) →
      tryMatch tag (M ++ S) acc = some M.length := by
  intro M
  induction M with
  | nil => intro S acc h; exact absurd rfl h
  | cons r M' ih =>
    intro S acc hne hjoin hmin
    cases hM : M' with
    | nil =>
      subst hM
      have heq : acc ++ r.text = tag := by
        rw [← hjoin, joinTexts_cons, joinTexts_nil, String.append_empty]
      show tryMatch tag (r :: S) acc = some [r].length
      unfold tryMatch
      rw [if_pos heq]
      rfl
    | cons r2 M'' =>
      subst hM
      have hlen : (1 : Nat) < (r :: r2 :: M'').length := by simp
      have hne1 : ¬ (acc ++ r.text = tag) := by
        have hm := hmin 1 hlen (by omega)
        rw [List.take_succ_cons, List.take_zero, joinTexts_cons, joinTexts_nil,
          String.append_empty] at hm
        exact hm
      have hpre : pyStartsWith tag (acc ++ r.text) = true := by
        unfold pyStartsWith
        rw [List.isPrefixOf_iff_prefix]
        have htag : tag = (acc ++ r.text) ++ joinTexts (r2 :: M'') := by
          rw [← hjoin, joinTexts_cons, String.append_assoc]
        rw [htag, String.data_append]
        exact List.prefix_append _ _
      have hrec : tryMatch tag ((r2 :: M'') ++ S) (acc ++ r.text)
          = some (r2 :: M'').length := by
        refine ih S (acc ++ r.text) (by simp) ?_ ?_
        · rw [String.append_assoc, ← joinTexts_cons]
          exact hjoin
        · intro k hk hk0
          have hm := hmin (k + 1) (by simp at hk ⊢; omega) (by omega)
          rw [List.take_succ_cons, joinTexts_cons, ← String.append_assoc] at hm
          exact hm
      show tryMatch tag (r :: ((r2 :: M'') ++ S)) acc = some (r :: r2 :: M'').length
      unfold tryMatch
      rw [if_neg hne1, if_pos hpre, hrec]
      rfl

theorem tryMatch_none_of_no_join (tag : String) (l : List TextRun)
    (h : ∀ k, k ≤ l.length → 0 < k → joinTexts (l.take k) ≠ tag) :
    tryMatch tag l "" = none := by
  cases hx : tryMatch tag l "" with
  | none => rfl
  | some k =>
    obtain ⟨h1, h2, h3⟩ := tryMatch_some_spec tag l "" k hx
    rw [String.empty_append] at h3
    exact absurd h3 (h k h2 h1)

theorem replaceTagGo_fuel_eq (tag v : String) :
    ∀ (f1 : Nat) (l : List TextRun) (f2 : Nat), l.length ≤ f1 → l.length ≤ f2 →
      replaceTagGo tag v f1 l = replaceTagGo tag v f2 l := by
  intro f1
  induction f1 with
  | zero =>
    intro l f2 h1 h2
    have hl : l = [] := List.length_eq_zero.mp (Nat.le_zero.mp h1)
    subst hl
    cases f2 <;> rfl
  | succ f ih =>
    intro l f2 h1 h2
    cases l with
    | nil => cases f2 <;> rfl
    | cons r rest =>
      cases f2 with
      | zero => simp at h2
      | succ f2' =>
        show replaceTagGo tag v (f + 1) (r :: rest)
          = replaceTagGo tag v (f2' + 1) (r :: rest)
        unfold replaceTagGo
        cases hx : tryMatch tag (r :: rest) "" with
        | some k =>
          dsimp only
          have hlen := List.length_drop (k - 1) rest
          have hr1 : (rest.drop (k - 1)).length ≤ f := by
            simp at h1
            omega
          have hr2 : (rest.drop (k - 1)).length ≤ f2' := by
            simp at h2
            omega
          rw [ih (rest.drop (k - 1)) f2' hr1 hr2]
        | none =>
          dsimp only
          have hr1 : rest.length ≤ f := by simp at h1; omega
          have hr2 : rest.length ≤ f2' := by simp at h2; omega
          rw [ih rest f2' hr1 hr2]

theorem replaceTagGo_cons_none (tag v : String) (f : Nat) (r : TextRun)
    (rest : List TextRun) (h : tryMatch tag (r :: rest) "" = none) :
    replaceTagGo tag v (f + 1) (r :: rest) = r :: replaceTagGo tag v f rest := by
  conv_lhs => unfold replaceTagGo
  rw [h]

theorem replaceTagGo_cons_some (tag v : String) (f : Nat) (r : TextRun)
    (rest : List TextRun) (k : Nat) (h : tryMatch tag (r :: rest) "" = some k) :
    replaceTagGo tag v (f + 1) (r :: rest)
      = { r with text := v } :: (blankRuns (rest.take (k - 1))
          ++ replaceTagGo tag v f (rest.drop (k - 1))) := by
  conv_lhs => unfold replaceTagGo
  rw [h]

theorem replaceTag_cons_none (tag v : String) (r : TextRun) (rest : List TextRun)
    (h : tryMatch tag (r :: rest) "" = none) :
    replaceTag tag v (r :: rest) = r :: replaceTag tag v rest := by
  show replaceTagGo tag v (rest.length + 1) (r :: rest) = r :: replaceTag tag v rest
  rw [replaceTagGo_cons_none tag v rest.length r rest h]
  rfl

theorem replaceTag_cons_some (tag v : String) (r : TextRun) (rest : List TextRun)
    (k : Nat) (h : tryMatch tag (r :: rest) "" = some k) :
    replaceTag tag v (r :: rest)
      = { r with text := v } :: (blankRuns (rest.take (k - 1))
          ++ replaceTag tag v (rest.drop (k - 1))) := by
  show replaceTagGo tag v (rest.length + 1) (r :: rest)
    = { r with text := v } :: (blankRuns (rest.take (k - 1))
        ++ replaceTag tag v (rest.drop (k - 1)))
  rw [replaceTagGo_cons_some tag v rest.length r rest k h]
  have hlen := List.length_drop (k - 1) rest
  rw [replaceTagGo_fuel_eq tag v rest.length (rest.drop (k - 1))
    (rest.drop (k - 1)).length (by omega) (le_refl _)]
  rfl

theorem replaceTag_append_of_no_match (tag v : String) :
    ∀ (P rest : List TextRun),
      (∀ i, i < P.length → tryMatch tag ((P ++ rest).drop i) "" = none) →
      replaceTag tag v (P ++ rest) = P ++ replaceTag tag v rest := by
  intro P
  induction P with
  | nil => intro rest h; rfl
  | cons p P' ih =>
    intro rest h
    have h0 : tryMatch tag (p :: (P' ++ rest)) "" = none := by
      have hh := h 0 (by simp)
      simpa using hh
    have hrest : ∀ i, i < P'.length →
        tryMatch tag ((P' ++ rest).drop i) "" = none := by
      intro i hi
      have hh := h (i + 1) (by simp; omega)
      simpa using hh
    rw [List.cons_append, replaceTag_cons_none tag v p (P' ++ rest) h0,
      ih rest hrest, List.cons_append]

/-! ## Claim C2 -/

/-- Counterexample to claim C2 as stated: in the paragraph "a"/"a"/"a" with
    marker "aa" and value "X", fragments 1..2 concatenate exactly to the
    marker, yet one pass rewrites fragment 0 and blanks fragment 1 (the scan
    finds the overlapping occurrence at fragment 0 first), so fragment 1 does
    not receive the value, and the result "Xa" is not byte-identical to the
    single-fragment layout "a"/"aa", which yields "aX". -/
theorem C2_counterexample :
    joinTexts [{ text := "a", fmt := 1 }, { text := "a", fmt := 2 }] = "aa" ∧
    replaceTag "aa" "X"
        [{ text := "a", fmt := 0 }, { text := "a", fmt := 1 },
         { text := "a", fmt := 2 }]
      = [{ text := "X", fmt := 0 }, { text := "", fmt := 1 },
         { text := "a", fmt := 2 }] ∧
    joinTexts (replaceTag "aa" "X"
        [{ text := "a", fmt := 0 }, { text := "a", fmt := 1 },
         { text := "a", fmt := 2 }])
      ≠ joinTexts (replaceTag "aa" "X"
        [{ text := "a", fmt := 0 }, { text := "aa", fmt := 1 }]) := by
  refine ⟨by decide, by decide, by decide⟩

/-- Claim C2 as amended: when the partitioned occurrence is the first
    fragment-aligned occurrence of the marker — no fragment-aligned match of
    `m` begins at any fragment before it, in either layout — one pass of the
    loop rewrites the occurrence's first fragment to the value (keeping its
    formatting payload), blanks the remaining consumed fragments, leaves the
    prefix untouched, resumes after the consumed range, and the concatenated
    paragraph text is byte-identical to the single-fragment case. -/
theorem C2_split_marker_amended (P M S : List TextRun) (m v : String) (f : Nat)
    (hMne : M ≠ [])
    (hM : joinTexts M = m)
    (hProper : ∀ k, k < M.length → 0 < k → joinTexts (M.take k) ≠ m)
    (hEarly : ∀ i, i < P.length → ∀ k, k ≤ (P ++ M ++ S).length - i → 0 < k →
      joinTexts (((P ++ M ++ S).drop i).take k) ≠ m)
    (hEarly2 : ∀ i, i < P.length →
      ∀ k, k ≤ (P ++ { text := m, fmt := f } :: S).length - i → 0 < k →
      joinTexts (((P ++ { text := m, fmt := f } :: S).drop i).take k) ≠ m) :
    replaceTag m v (P ++ M ++ S)
      = P ++ { text := v, fmt := (M.head hMne).fmt } ::
          (blankRuns M.tail ++ replaceTag m v S) ∧
    joinTexts (replaceTag m v (P ++ M ++ S))
      = joinTexts (replaceTag m v (P ++ { text := m, fmt := f } :: S)) := by
  obtain ⟨r, M', hMeq⟩ := List.exists_cons_of_ne_nil hMne
  subst hMeq
  rw [List.append_assoc] at hEarly ⊢
  have htm : tryMatch m ((r :: M') ++ S) "" = some (M'.length + 1) := by
    have hj : "" ++ joinTexts (r :: M') = m := by
      rw [String.empty_append]
      exact hM
    have hp : ∀ k, k < (r :: M').length → 0 < k →
        "" ++ joinTexts ((r :: M').take k) ≠ m := by
      intro k hk hk0
      rw [String.empty_append]
      exact hProper k hk hk0
    have h := tryMatch_of_join m (r :: M') S "" (by simp) hj hp
    simpa using h
  have hnomatch : ∀ i, i < P.length →
      tryMatch m ((P ++ ((r :: M') ++ S)).drop i) "" = none := by
    intro i hi
    apply tryMatch_none_of_no_join
    intro k hkle hk0
    refine hEarly i hi k ?_ hk0
    rwa [List.length_drop] at hkle
  have hskip1 := replaceTag_append_of_no_match m v P ((r :: M') ++ S) hnomatch
  have hbody1 : replaceTag m v ((r :: M') ++ S)
      = { r with text := v } :: (blankRuns M' ++ replaceTag m v S) := by
    rw [List.cons_append]
    have htm' : tryMatch m (r :: (M' ++ S)) "" = some (M'.length + 1) := by
      rw [← List.cons_append]
      exact htm
    rw [replaceTag_cons_some m v r (M' ++ S) (M'.length + 1) htm']
    rw [show M'.length + 1 - 1 = M'.length from rfl]
    rw [List.take_left' rfl, List.drop_left' rfl]
  have hmain1 : replaceTag m v (P ++ ((r :: M') ++ S))
      = P ++ { text := v, fmt := r.fmt } :: (blankRuns M' ++ replaceTag m v S) := by
    rw [hskip1, hbody1]
  constructor
  · rw [hmain1]
    rfl
  · have hnomatch2 : ∀ i, i < P.length →
        tryMatch m ((P ++ { text := m, fmt := f } :: S).drop i) "" = none := by
      intro i hi
      apply tryMatch_none_of_no_join
      intro k hkle hk0
      refine hEarly2 i hi k ?_ hk0
      rwa [List.length_drop] at hkle
    have hskip2 := replaceTag_append_of_no_match m v P
      ({ text := m, fmt := f } :: S) hnomatch2
    have htm2 : tryMatch m ({ text := m, fmt := f } :: S) "" = some 1 := by
      unfold tryMatch
      rw [if_pos (by rw [String.empty_append])]
    have hbody2 : replaceTag m v ({ text := m, fmt := f } :: S)
        = { text := v, fmt := f } :: replaceTag m v S := by
      rw [replaceTag_cons_some m v _ S 1 htm2]
      simp [blankRuns]
    rw [hmain1, hskip2, hbody2]
    simp only [joinTexts_append, joinTexts_cons, joinTexts_blankRuns,
      String.empty_append, String.append_assoc]

/-- Witness for C2: a marker split across two fragments after an unrelated
    prefix fragment is resolved with the first fragment rewritten and the
    second blanked, byte-identical to the single-fragment layout. -/
theorem C2_witness :
    replaceTag "[[mk]]" "VAL"
        [{ text := "x", fmt := 7 }, { text := "[[m", fmt := 1 },
         { text := "k]]", fmt := 2 }, { text := "y", fmt := 3 }]
      = [{ text := "x", fmt := 7 }, { text := "VAL", fmt := 1 },
         { text := "", fmt := 2 }, { text := "y", fmt := 3 }] ∧
    joinTexts (replaceTag "[[mk]]" "VAL"
        [{ text := "x", fmt := 7 }, { text := "[[m", fmt := 1 },
         { text := "k]]", fmt := 2 }, { text := "y", fmt := 3 }])
      = joinTexts (replaceTag "[[mk]]" "VAL"
        [{ text := "x", fmt := 7 }, { text := "[[mk]]", fmt := 9 },
         { text := "y", fmt := 3 }]) := by
  have h := C2_split_marker_amended [{ text := "x", fmt := 7 }]
    [{ text := "[[m", fmt := 1 }, { text := "k]]", fmt := 2 }]
    [{ text := "y", fmt := 3 }] "[[mk]]" "VAL" 9
    (by decide) (by decide) (by decide) (by decide) (by decide)
  exact ⟨h.1.trans (by decide), h.2⟩

/-! ## Claim C5: helper lemmas about the Republic-calendar branch -/

theorem takeWhile_digit_append (y : List Char) (c : Char) (r : List Char)
    (hy : ∀ a ∈ y, a.isDigit = true) (hc : c.isDigit = false) :
    (y ++ c :: r).takeWhile Char.isDigit = y ∧
    (y ++ c :: r).dropWhile Char.isDigit = c :: r := by
  induction y with
  | nil =>
    constructor
    · rw [List.nil_append, List.takeWhile_cons_of_neg (by simp [hc])]
    · rw [List.nil_append, List.dropWhile_cons_of_neg (by simp [hc])]
  | cons a t ih =>
    have ha : a.isDigit = true := hy a (by simp)
    have iht := ih (fun x hx => hy x (by simp [hx]))
    constructor
    · rw [List.cons_append, List.takeWhile_cons_of_pos (by simp [ha]), iht.1]
    · rw [List.cons_append, List.dropWhile_cons_of_pos (by simp [ha]), iht.2]

theorem parseNum_shaped (lo hi : Nat) (stop : Char) (y r : List Char)
    (hy : ∀ a ∈ y, a.isDigit = true) (hstop : stop.isDigit = false)
    (h1 : lo ≤ y.length) (h2 : y.length ≤ hi) :
    parseNum lo hi stop (y ++ stop :: r) = some (y, r) := by
  obtain ⟨ht, hd⟩ := takeWhile_digit_append y stop r hy hstop
  unfold parseNum
  rw [ht, hd, if_pos ⟨h1, h2⟩]
  dsimp only
  rw [if_pos rfl]

theorem minguoMatch_shaped (y m d rest : List Char)
    (hy : ∀ a ∈ y, a.isDigit = true) (hy1 : 2 ≤ y.length) (hy2 : y.length ≤ 3)
    (hm : ∀ a ∈ m, a.isDigit = true) (hm1 : 1 ≤ m.length) (hm2 : m.length ≤ 2)
    (hd : ∀ a ∈ d, a.isDigit = true) (hd1 : 1 ≤ d.length) (hd2 : d.length ≤ 2) :
    minguoMatch ('民' :: '國' :: (y ++ '年' :: (m ++ '月' :: (d ++ '日' :: rest))))
      = some (y, m, d) := by
  unfold minguoMatch
  dsimp only
  rw [if_pos ⟨rfl, rfl⟩]
  rw [parseNum_shaped 2 3 '年' y _ hy (by decide) hy1 hy2]
  dsimp only
  rw [parseNum_shaped 1 2 '月' m _ hm (by decide) hm1 hm2]
  dsimp only
  rw [parseNum_shaped 1 2 '日' d _ hd (by decide) hd1 hd2]

theorem ltrim_cons_of_nonws (c : Char) (l : List Char) (h : isWs c = false) :
    ltrimL (c :: l) = c :: l := by
  unfold ltrimL
  rw [List.dropWhile_cons_of_neg (by simp [h])]

theorem rtrim_append_mid (A B : List Char) (c : Char) (h : isWs c = false) :
    ∃ B2, rtrimL (A ++ c :: B) = A ++ c :: B2 := by
  unfold rtrimL
  rw [show A ++ c :: B = A ++ [c] ++ B by simp]
  rw [List.reverse_append, List.reverse_append, List.dropWhile_append]
  by_cases hB : (B.reverse.dropWhile isWs).isEmpty
  · rw [if_pos hB]
    rw [List.dropWhile_append]
    have hc : (([c] : List Char).reverse.dropWhile isWs) = [c] := by
      simp [List.dropWhile_cons_of_neg, h]
    rw [hc]
    refine ⟨[], ?_⟩
    simp
  · rw [if_neg hB]
    refine ⟨(B.reverse.dropWhile isWs).reverse, ?_⟩
    simp

theorem pyStrip_shape (y m d rest : List Char) :
    ∃ rest2,
      pyStripL ('民' :: '國' :: (y ++ '年' :: (m ++ '月' :: (d ++ '日' :: rest))))
        = '民' :: '國' :: (y ++ '年' :: (m ++ '月' :: (d ++ '日' :: rest2))) := by
  unfold pyStripL
  rw [ltrim_cons_of_nonws _ _ (by decide)]
  obtain ⟨B2, hB2⟩ := rtrim_append_mid
    ('民' :: '國' :: (y ++ '年' :: (m ++ '月' :: d))) rest '日' (by decide)
  refine ⟨B2, ?_⟩
  have hshape : '民' :: '國' :: (y ++ '年' :: (m ++ '月' :: (d ++ '日' :: rest)))
      = ('民' :: '國' :: (y ++ '年' :: (m ++ '月' :: d))) ++ '日' :: rest := by
    simp [List.cons_append, List.append_assoc]
  have hshape2 : ('民' :: '國' :: (y ++ '年' :: (m ++ '月' :: d))) ++ '日' :: B2
      = '民' :: '國' :: (y ++ '年' :: (m ++ '月' :: (d ++ '日' :: B2))) := by
    simp [List.cons_append, List.append_assoc]
  rw [hshape, hB2, hshape2]

theorem format_single_date_minguo (s : String) (y m d : List Char)
    (hne : pyStrip s ≠ "")
    (hmatch : minguoMatch (pyStripL s.data) = some (y, m, d)) :
    format_single_date s = renderMinguo y m d := by
  unfold format_single_date
  rw [if_neg hne, hmatch]

/-! ## Claim C5 -/

/-- Counterexample to claim C5 as stated: on a Republic-calendar date followed
    by trailing time text, the claim demands zero-padded Republic-calendar
    output with the trailing time text preserved; the archived date normalizer
    matches the date as a prefix and drops the trailing text, and the current
    `format_date` has no Republic-calendar branch at all and returns the input
    unchanged. -/
theorem C5_counterexample :
    format_single_date "民國114年5月20日中午12時" = "民國114年05月20日" ∧
    format_single_date "民國114年5月20日中午12時" ≠ "民國114年05月20日中午12時" ∧
    format_date "民國114年5月20日中午12時" = "民國114年5月20日中午12時" := by
  refine ⟨by decide, by decide, by decide⟩

/-- Claim C5 as amended: the archived normalizer matches the Republic-calendar
    long form as an anchored prefix of the stripped input and reformats it
    with zero-padded month and day, discarding any trailing text and
    performing no calendar-validity check (so an invalid Republic date is
    still reformatted); the calendar-validated Western and compact forms are
    only tried when the Republic form does not match; the current
    `format_date` has no Republic branch and returns such input unchanged. -/
theorem C5_date_amended :
    (∀ y m d rest : List Char,
      (∀ a ∈ y, a.isDigit = true) → 2 ≤ y.length → y.length ≤ 3 →
      (∀ a ∈ m, a.isDigit = true) → 1 ≤ m.length → m.length ≤ 2 →
      (∀ a ∈ d, a.isDigit = true) → 1 ≤ d.length → d.length ≤ 2 →
      format_single_date
          ⟨'民' :: '國' :: (y ++ '年' :: (m ++ '月' :: (d ++ '日' :: rest)))⟩
        = renderMinguo y m d) ∧
    format_date "民國114年5月20日中午12時" = "民國114年5月20日中午12時" := by
  constructor
  · intro y m d rest hy hy1 hy2 hm hm1 hm2 hd hd1 hd2
    obtain ⟨rest2, hstrip⟩ := pyStrip_shape y m d rest
    have hne : pyStrip
        (⟨'民' :: '國' :: (y ++ '年' :: (m ++ '月' :: (d ++ '日' :: rest)))⟩ : String)
        ≠ "" := by
      intro hc
      have h2 : pyStripL ('民' :: '國' ::
          (y ++ '年' :: (m ++ '月' :: (d ++ '日' :: rest)))) = ([] : List Char) :=
        congrArg String.data hc
      rw [hstrip] at h2
      exact absurd h2 (by simp)
    have hmatch : minguoMatch (pyStripL ('民' :: '國' ::
        (y ++ '年' :: (m ++ '月' :: (d ++ '日' :: rest))))) = some (y, m, d) := by
      rw [hstrip]
      exact minguoMatch_shaped y m d rest2 hy hy1 hy2 hm hm1 hm2 hd hd1 hd2
    exact format_single_date_minguo _ y m d hne hmatch
  · decide

/-- Witness for C5: the calendar-invalid Republic date "民國110年2月30日" is
    still zero-padded and accepted by the archived normalizer, confirming that
    the Republic branch performs no validity check. -/
theorem C5_witness :
    format_single_date "民國110年2月30日" = "民國110年02月30日" := by
  have h := C5_date_amended.1 ['1', '1', '0'] ['2'] ['3', '0'] []
    (by decide) (by decide) (by decide) (by decide) (by decide) (by decide)
    (by decide) (by decide) (by decide)
  exact h.trans (by decide)
